import Mathlib

/-! AI-Helper file explorer (`copyfiles.go`): listing, selection and clipboard aggregation.

A shallow embedding of the state-carrying core of `copyfiles.go`:

* Go strings are byte sequences (`GoString`), compared and sliced byte-wise;
* the `FileExplorer` fields `currentDir`, `selectedFiles`, `prefix` form the view state;
* calls into the operating system, `path/filepath` and the clipboard are supplied through the
  record `Env` (their results are inputs of the embedding);
* `sort.Slice` is the insertion sort of the Go standard library;
* notifications and clipboard writes are collected in an explicit effect log.
-/

namespace CopyFiles

/-! ## Go strings -/

/-- A Go `string`: an immutable sequence of bytes. -/
abbrev GoString := List Nat

/-- The bytes of an ASCII string literal of the source. -/
def lit (s : String) : GoString := s.toList.map Char.toNat

/-- Go's `s < t` on strings: byte-wise comparison of the common part, then the shorter
string first. -/
def strLess : GoString → GoString → Bool
  | [], [] => false
  | [], _ :: _ => true
  | _ :: _, [] => false
  | a :: s, b :: t => if a < b then true else if b < a then false else strLess s t

/-- The function `hasPrefix` of `copyfiles.go`:
`len(s) >= len(prefix) && s[:len(prefix)] == prefix`. -/
def hasPrefix (s pfx : GoString) : Bool :=
  decide (s.length ≥ pfx.length) && (s.take pfx.length == pfx)

/-- The function `isRoot` of `copyfiles.go`:
`path == "/" || (len(path) == 3 && path[1] == ':' && path[2] == '\\')`. -/
def isRoot (path : GoString) : Bool :=
  path == lit "/" || (path.length == 3 && path[1]? == some 58 && path[2]? == some 92)

/-! ## The collaborators of the program -/

/-- One entry of `os.ReadDir`: `entry.Name()` and `entry.IsDir()`. -/
structure DirEntry where
  name : GoString
  isDir : Bool
deriving DecidableEq, Repr

/-- One invocation `fn(p, d, werr)` of the callback of `filepath.WalkDir`: the path, `d.IsDir()`
and the error text when `werr != nil`. -/
structure WalkCall where
  p : GoString
  isDir : Bool
  werr : Option GoString
deriving DecidableEq, Repr

/-- What the program obtains from outside: `path/filepath`, `os` and the clipboard. A Go `error`
is represented by its message (what `%v` prints). The callback handed to `filepath.WalkDir`
returns `nil` on every path, so a walk is the list of its callback invocations together with
the error `WalkDir` itself returns. -/
structure Env where
  /-- The call `filepath.Join(dir, name)`. -/
  join : GoString → GoString → GoString
  /-- The call `filepath.Dir(path)`. -/
  dir : GoString → GoString
  /-- The call `filepath.Base(path)`. -/
  base : GoString → GoString
  /-- The call `filepath.Rel(basepath, targpath)`: the error or the relative path. -/
  rel : GoString → GoString → Except GoString GoString
  /-- The call `os.ReadDir(path)`: the error or the entries. -/
  readDir : GoString → Except GoString (List DirEntry)
  /-- The call `os.Stat(path)`: the error, or `info.IsDir()`. -/
  stat : GoString → Except GoString Bool
  /-- The call `os.ReadFile(path)`: the error or the bytes of the file. -/
  readFile : GoString → Except GoString GoString
  /-- The call `filepath.WalkDir(root, fn)` for a callback that always returns `nil`. -/
  walkDir : GoString → List WalkCall × Option GoString
  /-- The call `clipboard.WriteAll(text)`: `none` on success, the error otherwise. -/
  writeAll : GoString → Option GoString

/-! ## `map[string]bool` -/

/-- A Go `map[string]bool`: key/value pairs with pairwise distinct keys. The order of `entries`
stands for the order in which `range` visits the map in the run at hand. -/
structure GoMap where
  entries : List (GoString × Bool)
  nodup : (entries.map Prod.fst).Nodup

/-- The assignment `m[k] = v` on the entry list: overwrite the entry of `k`, or add one. -/
def setEntry (k : GoString) (v : Bool) : List (GoString × Bool) → List (GoString × Bool)
  | [] => [(k, v)]
  | e :: es => if e.1 = k then (k, v) :: es else e :: setEntry k v es

namespace GoMap

/-- The empty map `make(map[string]bool)`. -/
def empty : GoMap := ⟨[], List.nodup_nil⟩

/-- The two-valued read `v, ok := m[k]`: `none` when `ok` is false. -/
def lookup (m : GoMap) (k : GoString) : Option Bool := List.lookup k m.entries

/-- The assignment `m[k] = v`. -/
def set (m : GoMap) (k : GoString) (v : Bool) : GoMap :=
  ⟨setEntry k v m.entries, by
    have keys : ∀ es : List (GoString × Bool), (setEntry k v es).map Prod.fst =
        if k ∈ es.map Prod.fst then es.map Prod.fst else es.map Prod.fst ++ [k] := by
      intro es
      induction es with
      | nil => simp [setEntry]
      | cons e es ih =>
        by_cases h : e.1 = k
        · simp [setEntry, h]
        · have h' : ¬ k = e.1 := fun h2 => h h2.symm
          simp only [setEntry, h, if_false, List.map_cons, ih, List.mem_cons, h', false_or]
          split_ifs <;> simp
    rw [keys]
    split_ifs with hk
    · exact m.nodup
    · exact List.Nodup.append m.nodup (List.nodup_singleton k) (by simpa using hk)⟩

/-- The map without key `k` (Go's `delete(m, k)`); the other entries keep their order. -/
def erase (m : GoMap) (k : GoString) : GoMap :=
  ⟨m.entries.filter (fun e => e.1 != k),
    m.nodup.sublist ((List.filter_sublist m.entries).map Prod.fst)⟩

end GoMap

/-! ## The view state and the listing -/

/-- The state of one explorer window: the fields `currentDir`, `selectedFiles` and `prefix`
(here `pfx`) of `FileExplorer`. The fields `app` and `window` are handles of the GUI toolkit. -/
structure FileExplorer where
  currentDir : GoString
  selectedFiles : GoMap
  pfx : GoString

/-- The constructor `NewFileExplorer(app, dir, prefix)`. -/
def NewFileExplorer (dir pfx : GoString) : FileExplorer :=
  { currentDir := dir, selectedFiles := GoMap.empty, pfx := pfx }

/-- The inner loop of the library's insertion sort (`insertionSortLessFunc`),
`for j := i; j > a && less(j, j-1); j-- { swap(j, j-1) }`, on the already sorted part held
last element first: the new element `x` moves left past every element it is less than. -/
def siftLeft {α : Type} (less : α → α → Bool) (x : α) : List α → List α
  | [] => [x]
  | y :: ys => if less x y then y :: siftLeft less x ys else x :: y :: ys

/-- The call `sort.Slice(data, less)` of the Go standard library, as the insertion sort the
library runs on short slices: the elements are inserted one after the other, left to right. -/
def sortSlice {α : Type} (less : α → α → Bool) (data : List α) : List α :=
  (data.foldl (fun sorted x => siftLeft less x sorted) []).reverse

/-- The `less` function of both `sort.Slice` calls of `updateContent`:
`folders[i].Name() < folders[j].Name()`. -/
def nameLess (a b : DirEntry) : Bool := strLess a.name b.name

/-- The body of the loop `for _, entry := range entries` of `updateContent` on the pair
`(folders, files)`. -/
def classify (pfx : GoString) (acc : List DirEntry × List DirEntry) (entry : DirEntry) :
    List DirEntry × List DirEntry :=
  if entry.isDir then (acc.1 ++ [entry], acc.2)
  else if pfx == [] || (pfx != [] && hasPrefix entry.name pfx) then (acc.1, acc.2 ++ [entry])
  else acc

/-- The listing step of `updateContent` (lines 45-55): partition the entries into `folders`
and `files`, then sort both by name. -/
def listing (pfx : GoString) (entries : List DirEntry) : List DirEntry × List DirEntry :=
  let groups := entries.foldl (classify pfx) ([], [])
  (sortSlice nameLess groups.1, sortSlice nameLess groups.2)

/-- A row of the tile list built by `updateContent`. -/
inductive Row where
  /-- the `..` row of `createParentNavigationRow` -/
  | parent
  /-- a folder row: its path, its label and the state of its checkbox -/
  | folder (path name : GoString) (checked : Bool)
  /-- a file row: its path, its label and the state of its checkbox -/
  | file (path name : GoString) (checked : Bool)
deriving DecidableEq, Repr

/-- What `updateContent` returns: the error label, or the browser with its rows, the label of
the current path and the two groups the `Select All` button has captured. -/
inductive Content where
  | errorLabel (text : GoString)
  | browser (rows : List Row) (currentPath : GoString) (folders files : List DirEntry)

/-- The state a checkbox is given after a re-render:
`if v, ok := fe.selectedFiles[path]; ok { check.SetChecked(v) }`, unchecked otherwise. -/
def checkState (fe : FileExplorer) (path : GoString) : Bool :=
  match fe.selectedFiles.lookup path with
  | some v => v
  | none => false

/-- The rows `updateContent` adds for a current directory and its two sorted groups: the `..`
row `if !isRoot(fe.currentDir)`, then one row per folder, then one row per file. -/
def rows (env : Env) (fe : FileExplorer) (folders files : List DirEntry) : List Row :=
  (if !isRoot fe.currentDir then [Row.parent] else [])
    ++ folders.map (fun folder =>
        Row.folder (env.join fe.currentDir folder.name) folder.name
          (checkState fe (env.join fe.currentDir folder.name)))
    ++ files.map (fun file =>
        Row.file (env.join fe.currentDir file.name) file.name
          (checkState fe (env.join fe.currentDir file.name)))

/-- The method `FileExplorer.updateContent`. It reads the state and does not change it. -/
def updateContent (env : Env) (fe : FileExplorer) : Content :=
  match env.readDir fe.currentDir with
  | .error err => Content.errorLabel (lit "Error reading directory: " ++ err)
  | .ok entries =>
    let groups := listing fe.pfx entries
    Content.browser (rows env fe groups.1 groups.2) fe.currentDir groups.1 groups.2

/-! ## The actions of the buttons -/

/-- The checkbox callback `fe.selectedFiles[path] = checked`. -/
def toggle (fe : FileExplorer) (path : GoString) (checked : Bool) : FileExplorer :=
  { fe with selectedFiles := fe.selectedFiles.set path checked }

/-- The "open here" button of a folder row (lines 91-95):
`fe.currentDir = folderPath; fe.selectedFiles = make(map[string]bool)`. -/
def openHere (fe : FileExplorer) (folderPath : GoString) : FileExplorer :=
  { fe with currentDir := folderPath, selectedFiles := GoMap.empty }

/-- The `..` button of `createParentNavigationRow` (lines 183-188):
`fe.currentDir = filepath.Dir(fe.currentDir); fe.selectedFiles = make(map[string]bool)`. -/
def parentHere (env : Env) (fe : FileExplorer) : FileExplorer :=
  { fe with currentDir := env.dir fe.currentDir, selectedFiles := GoMap.empty }

/-- One pass of a loop of the `Select All` button:
`fe.selectedFiles[filepath.Join(fe.currentDir, entry.Name())] = true` for every entry. -/
def selectEach (env : Env) (fe : FileExplorer) (group : List DirEntry) : FileExplorer :=
  group.foldl (fun fe entry => toggle fe (env.join fe.currentDir entry.name) true) fe

/-- The `Select All` button (lines 143-156): first the listed folders, then the listed files. -/
def selectAll (env : Env) (fe : FileExplorer) (folders files : List DirEntry) : FileExplorer :=
  selectEach env (selectEach env fe folders) files

/-! ## `copySelected` -/

/-- A `fyne.Notification`: title and content. -/
structure Notification where
  title : GoString
  content : GoString
deriving DecidableEq, Repr

/-- The text `fmt.Sprintf("%d", n)` of a count `n`. -/
def decimal (n : Nat) : GoString := (Nat.toDigits 10 n).map Char.toNat

/-- The method `FileExplorer.showError` on the log of sent notifications:
`SendNotification(&fyne.Notification{Title: "Error", Content: message})`. -/
def showError (log : List Notification) (message : GoString) : List Notification :=
  log ++ [{ title := lit "Error", content := message }]

/-- The local state of `copySelected` while it runs: `buffer`, `copiedBlocks` and the
notifications sent so far. -/
structure CopyState where
  buffer : GoString
  copiedBlocks : Nat
  log : List Notification
deriving DecidableEq, Repr

/-- The method `FileExplorer.appendFileContent(buffer, filePath, displayName)`: the state
after the call and the returned flag. -/
def appendFileContent (env : Env) (st : CopyState) (filePath displayName : GoString) :
    CopyState × Bool :=
  match env.readFile filePath with
  | .error err =>
    let message := lit "Error reading file " ++ filePath ++ lit ": " ++ err
    ({ st with log := showError st.log message }, false)
  | .ok content =>
    let b1 := st.buffer ++ (lit "--- " ++ displayName ++ lit " ---\n")
    let b2 := b1 ++ content
    let b3 := b2 ++ lit "\n"
    ({ st with buffer := b3 }, true)

/-- The statement `if fe.appendFileContent(&buffer, p, display) { copiedBlocks++ }`. -/
def appendCounted (env : Env) (st : CopyState) (filePath displayName : GoString) : CopyState :=
  let r := appendFileContent env st filePath displayName
  if r.2 then { r.1 with copiedBlocks := r.1.copiedBlocks + 1 } else r.1

/-- The header name of a walked file (lines 282-286): `rel`, or `filepath.Base(p)` when
`rerr != nil || rel == "."`. -/
def walkDisplay (env : Env) (path p : GoString) : GoString :=
  match env.rel path p with
  | .error _ => env.base p
  | .ok rel => if rel == lit "." then env.base p else rel

/-- The callback given to `filepath.WalkDir` (lines 274-291), on one invocation. -/
def walkFn (env : Env) (path : GoString) (st : CopyState) (c : WalkCall) : CopyState :=
  if c.werr.isSome then st
  else if c.isDir then st
  else appendCounted env st c.p (walkDisplay env path c.p)

/-- The body of the loop `for path, selected := range fe.selectedFiles` (lines 261-302). -/
def copyStep (env : Env) (st : CopyState) (e : GoString × Bool) : CopyState :=
  if !e.2 then st
  else
    match env.stat e.1 with
    | .error err =>
      let message := lit "Error accessing " ++ e.1 ++ lit ": " ++ err
      { st with log := showError st.log message }
    | .ok true =>
      let st1 := (env.walkDir e.1).1.foldl (walkFn env e.1) st
      match (env.walkDir e.1).2 with
      | some err =>
        let message := lit "Error walking directory " ++ e.1 ++ lit ": " ++ err
        { st1 with log := showError st1.log message }
      | none => st1
    | .ok false => appendCounted env st e.1 (env.base e.1)

/-- The loop of `copySelected` over a selection, visited in the order of the list. -/
def copyLoop (env : Env) (sel : List (GoString × Bool)) : CopyState :=
  sel.foldl (copyStep env) { buffer := [], copiedBlocks := 0, log := [] }

/-- What a run of `copySelected` leaves behind: the view state, the notifications sent (in
order), the texts `clipboard.WriteAll` was called with, and the final value of `copiedBlocks`. -/
structure CopyResult where
  fe : FileExplorer
  notifications : List Notification
  clipboard : List GoString
  copiedBlocks : Nat

/-- The method `FileExplorer.copySelected`. -/
def copySelected (env : Env) (fe : FileExplorer) : CopyResult :=
  let st := copyLoop env fe.selectedFiles.entries
  if st.copiedBlocks == 0 then
    { fe := fe, notifications := showError st.log (lit "No files selected"),
      clipboard := [], copiedBlocks := st.copiedBlocks }
  else
    match env.writeAll st.buffer with
    | some err =>
      let message := lit "Failed to copy to clipboard: " ++ err
      { fe := fe, notifications := showError st.log message,
        clipboard := [st.buffer], copiedBlocks := st.copiedBlocks }
    | none =>
      let content := lit "Copied " ++ decimal st.copiedBlocks ++ lit " file blocks to clipboard"
      { fe := fe, notifications := st.log ++ [{ title := lit "Success", content := content }],
        clipboard := [st.buffer], copiedBlocks := st.copiedBlocks }

/-! ## The specification side -/

/-- A file block as the specification words it: the header line `--- <display-name> ---`, the
raw bytes of the file, a trailing newline. -/
def block (displayName content : GoString) : GoString :=
  lit "--- " ++ displayName ++ lit " ---\n" ++ content ++ lit "\n"

/-- The clipboard payload of a sequence of `(display name, content)` blocks: their
concatenation, in order. -/
def payload (blocks : List (GoString × GoString)) : GoString :=
  (blocks.map (fun b => block b.1 b.2)).flatten

/-- The block of one file under a display name: none when the read fails. -/
def readBlock (env : Env) (filePath displayName : GoString) : List (GoString × GoString) :=
  match env.readFile filePath with
  | .error _ => []
  | .ok content => [(displayName, content)]

/-- The blocks one selected path contributes, for a given rule `display path p` naming a file
`p` found by walking the selected folder `path`: nothing when `stat` fails; for a folder one
block per successfully read non-directory entry of the walk, in walk order; for a file its one
block under its base name. -/
def pathBlocks (display : GoString → GoString → GoString) (env : Env) (path : GoString) :
    List (GoString × GoString) :=
  match env.stat path with
  | .error _ => []
  | .ok true =>
    (((env.walkDir path).1.filter (fun c => !c.werr.isSome && !c.isDir)).map
      (fun c => readBlock env c.p (display path c.p))).flatten
  | .ok false => readBlock env path (env.base path)

/-- The blocks of a whole selection: those of the paths flagged true, in iteration order. -/
def selectionBlocks (display : GoString → GoString → GoString) (env : Env)
    (sel : List (GoString × Bool)) : List (GoString × GoString) :=
  ((sel.filter (fun e => e.2)).map (fun e => pathBlocks display env e.1)).flatten

/-- The display rule in the words of the specification: a walked file is named by its path
relative to the selected folder (the result of `filepath.Rel`; left empty where there is
none). -/
def relDisplay (env : Env) (path p : GoString) : GoString :=
  match env.rel path p with
  | .error _ => []
  | .ok rel => rel

/-- The walk of `path` agrees with the reads and with `filepath.Rel` the way the answers of
one filesystem state do: every entry the walk reports without error as a non-directory and
that can be read lies below `path`, that is `filepath.Rel` gives its relative path and this
is not ".". (A walk meets its root as a non-directory only when the root is a link to a
folder, and reading that fails.) -/
def walkBelow (env : Env) (path : GoString) : Bool :=
  (env.walkDir path).1.all (fun c =>
    c.werr.isSome || c.isDir ||
      match env.readFile c.p with
      | .error _ => true
      | .ok _ =>
        match env.rel path c.p with
        | .error _ => false
        | .ok rel => rel != lit ".")

/-- The environment answers consistently on a selection: `walkBelow` holds for every path
flagged true that `os.Stat` reports as a directory. -/
def consistentOn (env : Env) (sel : List (GoString × Bool)) : Bool :=
  sel.all (fun e =>
    !e.2 ||
      match env.stat e.1 with
      | .ok true => walkBelow env e.1
      | _ => true)

/-- The notification a failed read of `filePath` causes: none when the read succeeds. -/
def readLog (env : Env) (filePath : GoString) : List Notification :=
  match env.readFile filePath with
  | .error err =>
    [{ title := lit "Error", content := lit "Error reading file " ++ filePath ++ lit ": " ++ err }]
  | .ok _ => []

/-- The error notifications one selected path causes: the access error when `stat` fails; for
a folder the read errors of its walked non-directory entries, in walk order, then the error of
the walk itself if it returns one; for a file its read error. -/
def pathLog (env : Env) (path : GoString) : List Notification :=
  match env.stat path with
  | .error err =>
    [{ title := lit "Error", content := lit "Error accessing " ++ path ++ lit ": " ++ err }]
  | .ok true =>
    (((env.walkDir path).1.filter (fun c => !c.werr.isSome && !c.isDir)).map
      (fun c => readLog env c.p)).flatten
    ++ (match (env.walkDir path).2 with
        | some err =>
          [{ title := lit "Error",
             content := lit "Error walking directory " ++ path ++ lit ": " ++ err }]
        | none => [])
  | .ok false => readLog env path

/-- The error notifications of a whole selection: those of the paths flagged true, in
iteration order. -/
def selectionLog (env : Env) (sel : List (GoString × Bool)) : List Notification :=
  ((sel.filter (fun e => e.2)).map (fun e => pathLog env e.1)).flatten

/-- The notification of the no-selection error. -/
def noSelection : Notification := { title := lit "Error", content := lit "No files selected" }

/-- The notification that ends a run of `copySelected` whose loop has appended `blocks`: the
no-selection error for no block, else the outcome of the clipboard write. -/
def finalNotification (env : Env) (blocks : List (GoString × GoString)) : Notification :=
  if blocks.length == 0 then noSelection
  else
    match env.writeAll (payload blocks) with
    | some err => { title := lit "Error", content := lit "Failed to copy to clipboard: " ++ err }
    | none =>
      { title := lit "Success",
        content := lit "Copied " ++ decimal blocks.length ++ lit " file blocks to clipboard" }

/-- The notification of a failed `os.Stat` on a selected path. -/
def accessError (path cause : GoString) : Notification :=
  { title := lit "Error", content := lit "Error accessing " ++ path ++ lit ": " ++ cause }

/-- The view with `path` taken out of its selection set. -/
def unselect (fe : FileExplorer) (path : GoString) : FileExplorer :=
  { fe with selectedFiles := fe.selectedFiles.erase path }

/-- An ASCII letter. -/
def isLetter (c : Nat) : Bool := (65 ≤ c && c ≤ 90) || (97 ≤ c && c ≤ 122)

/-- A drive-letter root in the words of the specification: one drive letter followed by
a colon and a backslash, such as `C:\`. -/
def isDriveRoot (path : GoString) : Bool :=
  match path with
  | [c, 58, 92] => isLetter c
  | _ => false

/-! ## Sample environments -/

/-- What `filepath.Join` returns on a clean directory and a plain name, with `/` as separator. -/
def slashJoin (dir name : GoString) : GoString := dir ++ lit "/" ++ name

/-- What `filepath.Base` returns on a clean path that holds a `/` and does not end in one. -/
def slashBase (path : GoString) : GoString := (path.reverse.takeWhile (fun c => c != 47)).reverse

/-- What `filepath.Dir` returns on a clean path with at least two `/`. -/
def slashDir (path : GoString) : GoString :=
  ((path.reverse.dropWhile (fun c => c != 47)).drop 1).reverse

/-- What `filepath.Rel` returns on clean paths where the target is the base or lies below it. -/
def slashRel (basepath targpath : GoString) : Except GoString GoString :=
  if targpath == basepath then .ok (lit ".")
  else if hasPrefix targpath (basepath ++ lit "/") then .ok (targpath.drop (basepath.length + 1))
  else .error (lit "Rel: can't make " ++ targpath ++ lit " relative to " ++ basepath)

/-- An environment given by tables: the directory listings, the walks of the directories and
the contents of the files. Every other path does not exist; the clipboard accepts every
text. -/
def tableEnv (listings : List (GoString × List DirEntry))
    (walks : List (GoString × List WalkCall)) (contents : List (GoString × GoString)) : Env where
  join := slashJoin
  dir := slashDir
  base := slashBase
  rel := slashRel
  readDir := fun path =>
    match listings.lookup path with
    | some entries => .ok entries
    | none => .error (lit "open " ++ path ++ lit ": no such file or directory")
  stat := fun path =>
    match walks.lookup path with
    | some _ => .ok true
    | none =>
      match contents.lookup path with
      | some _ => .ok false
      | none => .error (lit "stat " ++ path ++ lit ": no such file or directory")
  readFile := fun path =>
    match contents.lookup path with
    | some content => .ok content
    | none => .error (lit "open " ++ path ++ lit ": no such file or directory")
  walkDir := fun path =>
    match walks.lookup path with
    | some calls => (calls, none)
    | none => ([{ p := path, isDir := false, werr := some (lit "lstat failed") }], none)
  writeAll := fun _ => none

/-- The directory `/d` with the file `A` ("X") and the folder `F` holding `a` ("1") and
`b` ("2"). -/
def sampleEnv : Env :=
  tableEnv
    [(lit "/d", [⟨lit "F", true⟩, ⟨lit "A", false⟩]),
     (lit "/d/F", [⟨lit "b", false⟩, ⟨lit "a", false⟩])]
    [(lit "/d", [⟨lit "/d", true, none⟩, ⟨lit "/d/A", false, none⟩, ⟨lit "/d/F", true, none⟩,
        ⟨lit "/d/F/a", false, none⟩, ⟨lit "/d/F/b", false, none⟩]),
     (lit "/d/F", [⟨lit "/d/F", true, none⟩, ⟨lit "/d/F/a", false, none⟩,
        ⟨lit "/d/F/b", false, none⟩])]
    [(lit "/d/A", lit "X"), (lit "/d/F/a", lit "1"), (lit "/d/F/b", lit "2")]

/-- The directory `/d` with the single file `a` holding `x`, a header line for `b`, and `y`. -/
def oneFileEnv : Env :=
  tableEnv [] [] [(lit "/d/a", lit "x\n--- b ---\ny")]

/-- The directory `/d` with the two files `a` ("x") and `b` ("y"). -/
def twoFilesEnv : Env :=
  tableEnv [] [] [(lit "/d/a", lit "x"), (lit "/d/b", lit "y")]

/-- A view of `/d` with the entries `pairs` in its selection. -/
def viewOf (pairs : List (GoString × Bool)) : FileExplorer :=
  pairs.foldl (fun fe e => toggle fe e.1 e.2) (NewFileExplorer (lit "/d") [])

/-! ## Go's string order is the byte-wise lexicographic order -/

theorem strLess_iff_lex (s t : GoString) :
    strLess s t = true ↔ List.Lex (fun a b : Nat => a < b) s t := by
  induction s generalizing t with
  | nil =>
    cases t with
    | nil => simp [strLess]
    | cons b t => simp [strLess, List.Lex.nil]
  | cons a s ih =>
    cases t with
    | nil => simp [strLess]
    | cons b t =>
      rcases Nat.lt_trichotomy a b with h | h | h
      · simp [strLess, h, List.Lex.rel h]
      · subst h
        simp [strLess, ih, List.Lex.cons_iff]
      · have h1 : ¬ a < b := Nat.lt_asymm h
        simp only [strLess, h1, h, if_false, if_true]
        constructor
        · intro hf
          exact absurd hf (by simp)
        · intro hl
          cases hl with
          | cons hl => exact absurd h (Nat.lt_irrefl _)
          | rel hr => exact absurd hr h1

theorem strLess_iff_lt (s t : GoString) : strLess s t = true ↔ s < t :=
  strLess_iff_lex s t

theorem nameLess_asymm (a b : DirEntry) (h : nameLess a b = true) : nameLess b a = false := by
  have h1 : a.name < b.name := (strLess_iff_lt _ _).1 h
  cases hb : nameLess b a with
  | false => rfl
  | true => exact absurd ((strLess_iff_lt _ _).1 hb) (lt_asymm h1)

theorem nameLess_negtrans (a b c : DirEntry) (h1 : nameLess a b = false)
    (h2 : nameLess b c = false) : nameLess a c = false := by
  have g1 : ¬ a.name < b.name := fun h => by
    have := (strLess_iff_lt _ _).2 h
    simp [nameLess] at h1
    simp [h1] at this
  have g2 : ¬ b.name < c.name := fun h => by
    have := (strLess_iff_lt _ _).2 h
    simp [nameLess] at h2
    simp [h2] at this
  cases hc : nameLess a c with
  | false => rfl
  | true =>
    have h3 : a.name < c.name := (strLess_iff_lt _ _).1 hc
    exact absurd (lt_of_lt_of_le h3 (not_lt.1 g2)) (not_lt.2 (not_lt.1 g1))

/-! ## `sort.Slice` returns a sorted permutation -/

theorem siftLeft_perm {α : Type} (less : α → α → Bool) (x : α) (l : List α) :
    (siftLeft less x l).Perm (x :: l) := by
  induction l with
  | nil => simp [siftLeft]
  | cons y ys ih =>
    by_cases h : less x y = true
    · simp only [siftLeft, h, if_true]
      exact (List.Perm.cons y ih).trans (List.Perm.swap x y ys)
    · simp [siftLeft, h]

theorem sortSlice_perm {α : Type} (less : α → α → Bool) (l : List α) :
    (sortSlice less l).Perm l := by
  have key : ∀ (l acc : List α),
      (l.foldl (fun sorted x => siftLeft less x sorted) acc).Perm (l.reverse ++ acc) := by
    intro l
    induction l with
    | nil => intro acc; simp
    | cons x xs ih =>
      intro acc
      simp only [List.foldl_cons, List.reverse_cons, List.append_assoc, List.singleton_append]
      exact (ih _).trans (List.Perm.append_left _ (siftLeft_perm less x acc))
  unfold sortSlice
  refine (List.reverse_perm _).trans ?_
  simpa using (key l []).trans (by simp)

theorem siftLeft_sorted {α : Type} (less : α → α → Bool)
    (hasymm : ∀ a b, less a b = true → less b a = false)
    (hneg : ∀ a b c, less a b = false → less b c = false → less a c = false)
    (x : α) (l : List α) (h : l.Pairwise (fun a b => less a b = false)) :
    (siftLeft less x l).Pairwise (fun a b => less a b = false) := by
  induction l with
  | nil => simp [siftLeft]
  | cons y ys ih =>
    rw [List.pairwise_cons] at h
    by_cases hxy : less x y = true
    · simp only [siftLeft, hxy, if_true, List.pairwise_cons]
      refine ⟨?_, ih h.2⟩
      intro z hz
      have hz' : z ∈ x :: ys := (siftLeft_perm less x ys).mem_iff.1 hz
      simp only [List.mem_cons] at hz'
      rcases hz' with rfl | hz'
      · exact hasymm _ _ hxy
      · exact h.1 z hz'
    · have hxy' : less x y = false := by simpa using hxy
      have hdef : siftLeft less x (y :: ys) = x :: y :: ys := by simp [siftLeft, hxy']
      rw [hdef, List.pairwise_cons, List.pairwise_cons]
      refine ⟨?_, h.1, h.2⟩
      intro z hz
      simp only [List.mem_cons] at hz
      rcases hz with rfl | hz
      · exact hxy'
      · exact hneg _ _ _ hxy' (h.1 z hz)

theorem sortSlice_sorted {α : Type} (less : α → α → Bool)
    (hasymm : ∀ a b, less a b = true → less b a = false)
    (hneg : ∀ a b c, less a b = false → less b c = false → less a c = false)
    (l : List α) : (sortSlice less l).Pairwise (fun a b => less b a = false) := by
  have key : ∀ (l acc : List α), acc.Pairwise (fun a b => less a b = false) →
      (l.foldl (fun sorted x => siftLeft less x sorted) acc).Pairwise
        (fun a b => less a b = false) := by
    intro l
    induction l with
    | nil => intro acc h; exact h
    | cons x xs ih =>
      intro acc h
      exact ih _ (siftLeft_sorted less hasymm hneg x acc h)
  unfold sortSlice
  rw [List.pairwise_reverse]
  exact key l [] List.Pairwise.nil

/-! ## The listing step -/

theorem hasPrefix_iff (s pfx : GoString) :
    hasPrefix s pfx = true ↔ ∃ rest, s = pfx ++ rest := by
  unfold hasPrefix
  constructor
  · intro h
    simp only [Bool.and_eq_true, decide_eq_true_eq, beq_iff_eq] at h
    have hs := List.take_append_drop pfx.length s
    rw [h.2] at hs
    exact ⟨s.drop pfx.length, hs.symm⟩
  · rintro ⟨rest, rfl⟩
    simp

theorem foldl_classify (pfx : GoString) (entries : List DirEntry)
    (acc : List DirEntry × List DirEntry) :
    entries.foldl (classify pfx) acc =
      (acc.1 ++ entries.filter (fun e => e.isDir),
       acc.2 ++ entries.filter (fun e => !e.isDir && (pfx == [] || hasPrefix e.name pfx))) := by
  induction entries generalizing acc with
  | nil => simp
  | cons e es ih =>
    rw [List.foldl_cons, ih]
    by_cases hd : e.isDir = true
    · simp [classify, hd]
    · have hd' : e.isDir = false := by simpa using hd
      by_cases hp : pfx = []
      · simp [classify, hd', hp]
      · by_cases hh : hasPrefix e.name pfx = true
        · simp [classify, hd', hp, hh]
        · have hh' : hasPrefix e.name pfx = false := by simpa using hh
          simp [classify, hd', hp, hh']

theorem listing_fst_perm (pfx : GoString) (entries : List DirEntry) :
    (listing pfx entries).1.Perm (entries.filter (fun e => e.isDir)) := by
  unfold listing
  rw [foldl_classify]
  simpa using sortSlice_perm nameLess (entries.filter (fun e => e.isDir))

theorem listing_snd_perm (pfx : GoString) (entries : List DirEntry) :
    (listing pfx entries).2.Perm
      (entries.filter (fun e => !e.isDir && (pfx == [] || hasPrefix e.name pfx))) := by
  unfold listing
  rw [foldl_classify]
  simpa using sortSlice_perm nameLess
    (entries.filter (fun e => !e.isDir && (pfx == [] || hasPrefix e.name pfx)))

theorem sortSlice_nameLess_sorted (l : List DirEntry) :
    (sortSlice nameLess l).Pairwise
      (fun a b => a.name = b.name ∨ List.Lex (fun x y : Nat => x < y) a.name b.name) := by
  refine (sortSlice_sorted nameLess nameLess_asymm nameLess_negtrans l).imp ?_
  intro a b h
  have h1 : ¬ b.name < a.name := fun hlt => by
    have := (strLess_iff_lt _ _).2 hlt
    simp only [nameLess] at h
    simp [h] at this
  rcases eq_or_lt_of_le (not_lt.1 h1) with h2 | h2
  · exact Or.inl h2
  · exact Or.inr h2

/-- C1: in the listing step of `updateContent` an entry is in the folders group exactly when
it is a listed directory, whatever the prefix; it is in the files group exactly when it is
listed, is not a directory and the prefix is empty or `hasPrefix(name, prefix)` holds, which
says that the name is the prefix followed by some rest, byte for byte; no entry is in both
groups. -/
theorem listing_groups (pfx : GoString) (entries : List DirEntry) (e : DirEntry) :
    (e ∈ (listing pfx entries).1 ↔ e ∈ entries ∧ e.isDir = true) ∧
    (e ∈ (listing pfx entries).2 ↔
      e ∈ entries ∧ e.isDir = false ∧ (pfx = [] ∨ hasPrefix e.name pfx = true)) ∧
    (hasPrefix e.name pfx = true ↔ ∃ rest, e.name = pfx ++ rest) ∧
    ¬ (e ∈ (listing pfx entries).1 ∧ e ∈ (listing pfx entries).2) := by
  have h1 : e ∈ (listing pfx entries).1 ↔ e ∈ entries ∧ e.isDir = true := by
    rw [(listing_fst_perm pfx entries).mem_iff]
    simp
  have h2 : e ∈ (listing pfx entries).2 ↔
      e ∈ entries ∧ e.isDir = false ∧ (pfx = [] ∨ hasPrefix e.name pfx = true) := by
    rw [(listing_snd_perm pfx entries).mem_iff]
    simp
  refine ⟨h1, h2, hasPrefix_iff e.name pfx, ?_⟩
  rintro ⟨ha, hb⟩
  have h3 := (h1.1 ha).2
  have h4 := (h2.1 hb).2.1
  rw [h3] at h4
  exact Bool.noConfusion h4

/-- C2: both groups produced by the listing step of `updateContent` are sorted ascending by
name in the byte-wise lexicographic order (an entry's name equals or lexicographically
precedes the name of every later entry), the folders group is a permutation of the listed
directories and the files group a permutation of the listed non-directories that pass the
prefix test. -/
theorem listing_sorted_perm (pfx : GoString) (entries : List DirEntry) :
    (listing pfx entries).1.Pairwise
      (fun a b => a.name = b.name ∨ List.Lex (fun x y : Nat => x < y) a.name b.name) ∧
    (listing pfx entries).2.Pairwise
      (fun a b => a.name = b.name ∨ List.Lex (fun x y : Nat => x < y) a.name b.name) ∧
    (listing pfx entries).1.Perm (entries.filter (fun e => e.isDir)) ∧
    (listing pfx entries).2.Perm
      (entries.filter (fun e => !e.isDir && (pfx == [] || hasPrefix e.name pfx))) :=
  ⟨sortSlice_nameLess_sorted _, sortSlice_nameLess_sorted _, listing_fst_perm pfx entries,
    listing_snd_perm pfx entries⟩

/-! ## `copySelected`: the loop computes the blocks of the selection -/

theorem payload_append (xs ys : List (GoString × GoString)) :
    payload (xs ++ ys) = payload xs ++ payload ys := by
  simp [payload]

theorem appendCounted_eq (env : Env) (st : CopyState) (filePath displayName : GoString) :
    appendCounted env st filePath displayName =
      { buffer := st.buffer ++ payload (readBlock env filePath displayName),
        copiedBlocks := st.copiedBlocks + (readBlock env filePath displayName).length,
        log := st.log ++ readLog env filePath } := by
  cases h : env.readFile filePath with
  | error err => simp [appendCounted, appendFileContent, h, readBlock, readLog, payload, showError]
  | ok content =>
    simp [appendCounted, appendFileContent, h, readBlock, readLog, payload, block]

theorem foldl_walkFn (env : Env) (path : GoString) (calls : List WalkCall) (st : CopyState) :
    calls.foldl (walkFn env path) st =
      { buffer := st.buffer ++ payload (((calls.filter (fun c => !c.werr.isSome && !c.isDir)).map
          (fun c => readBlock env c.p (walkDisplay env path c.p))).flatten),
        copiedBlocks := st.copiedBlocks + (((calls.filter (fun c => !c.werr.isSome && !c.isDir)).map
          (fun c => readBlock env c.p (walkDisplay env path c.p))).flatten).length,
        log := st.log ++ ((calls.filter (fun c => !c.werr.isSome && !c.isDir)).map
          (fun c => readLog env c.p)).flatten } := by
  induction calls generalizing st with
  | nil => simp [payload]
  | cons c cs ih =>
    rw [List.foldl_cons, ih]
    obtain ⟨p, isDir, werr⟩ := c
    cases werr <;> cases isDir <;>
      simp [walkFn, List.filter_cons, appendCounted_eq, payload_append, List.append_assoc,
        Nat.add_assoc]

theorem copyStep_eq (env : Env) (st : CopyState) (e : GoString × Bool) :
    copyStep env st e =
      { buffer := st.buffer ++ payload (selectionBlocks (walkDisplay env) env [e]),
        copiedBlocks := st.copiedBlocks + (selectionBlocks (walkDisplay env) env [e]).length,
        log := st.log ++ selectionLog env [e] } := by
  obtain ⟨path, selected⟩ := e
  cases selected with
  | false => simp [copyStep, selectionBlocks, selectionLog, payload]
  | true =>
    cases hs : env.stat path with
    | error err =>
      simp [copyStep, selectionBlocks, selectionLog, pathBlocks, pathLog, hs, payload, showError]
    | ok isDir =>
      cases isDir with
      | false =>
        simp [copyStep, selectionBlocks, selectionLog, pathBlocks, pathLog, hs, appendCounted_eq]
      | true =>
        cases hw : (env.walkDir path).2 with
        | none =>
          simp [copyStep, selectionBlocks, selectionLog, pathBlocks, pathLog, hs, hw,
            foldl_walkFn]
        | some err =>
          simp [copyStep, selectionBlocks, selectionLog, pathBlocks, pathLog, hs, hw,
            foldl_walkFn, showError]

theorem selectionBlocks_append (display : GoString → GoString → GoString) (env : Env)
    (xs ys : List (GoString × Bool)) :
    selectionBlocks display env (xs ++ ys) =
      selectionBlocks display env xs ++ selectionBlocks display env ys := by
  simp [selectionBlocks]

theorem selectionLog_append (env : Env) (xs ys : List (GoString × Bool)) :
    selectionLog env (xs ++ ys) = selectionLog env xs ++ selectionLog env ys := by
  simp [selectionLog]

theorem foldl_copyStep (env : Env) (sel : List (GoString × Bool)) (st : CopyState) :
    sel.foldl (copyStep env) st =
      { buffer := st.buffer ++ payload (selectionBlocks (walkDisplay env) env sel),
        copiedBlocks := st.copiedBlocks + (selectionBlocks (walkDisplay env) env sel).length,
        log := st.log ++ selectionLog env sel } := by
  induction sel generalizing st with
  | nil => simp [selectionBlocks, selectionLog, payload]
  | cons e es ih =>
    have hb := selectionBlocks_append (walkDisplay env) env [e] es
    have hl := selectionLog_append env [e] es
    simp only [List.singleton_append] at hb hl
    rw [List.foldl_cons, ih, copyStep_eq, hb, hl]
    simp [payload_append, List.append_assoc, Nat.add_assoc]

theorem copyLoop_eq (env : Env) (sel : List (GoString × Bool)) :
    copyLoop env sel =
      { buffer := payload (selectionBlocks (walkDisplay env) env sel),
        copiedBlocks := (selectionBlocks (walkDisplay env) env sel).length,
        log := selectionLog env sel } := by
  unfold copyLoop
  rw [foldl_copyStep]
  simp

theorem copySelected_copiedBlocks (env : Env) (fe : FileExplorer) :
    (copySelected env fe).copiedBlocks =
      (selectionBlocks (walkDisplay env) env fe.selectedFiles.entries).length := by
  unfold copySelected
  simp only [copyLoop_eq]
  split
  · rfl
  · split <;> rfl

theorem copySelected_clipboard (env : Env) (fe : FileExplorer) :
    (copySelected env fe).clipboard =
      if selectionBlocks (walkDisplay env) env fe.selectedFiles.entries = [] then []
      else [payload (selectionBlocks (walkDisplay env) env fe.selectedFiles.entries)] := by
  unfold copySelected
  simp only [copyLoop_eq]
  by_cases h : selectionBlocks (walkDisplay env) env fe.selectedFiles.entries = []
  · simp [h]
  · have hl : ((selectionBlocks (walkDisplay env) env fe.selectedFiles.entries).length == 0)
        = false := by simpa using h
    simp only [hl, h, if_false, Bool.false_eq_true]
    split <;> rfl

theorem copySelected_notifications (env : Env) (fe : FileExplorer) :
    (copySelected env fe).notifications =
      selectionLog env fe.selectedFiles.entries ++
        [finalNotification env
          (selectionBlocks (walkDisplay env) env fe.selectedFiles.entries)] := by
  unfold copySelected finalNotification
  simp only [copyLoop_eq]
  split
  · rfl
  · split <;> rfl

theorem readBlock_display (env : Env) (path : GoString) (h : walkBelow env path = true)
    (c : WalkCall)
    (hc : c ∈ (env.walkDir path).1.filter (fun c => !c.werr.isSome && !c.isDir)) :
    readBlock env c.p (walkDisplay env path c.p)
      = readBlock env c.p (relDisplay env path c.p) := by
  obtain ⟨hmem, hkeep⟩ := List.mem_filter.1 hc
  have hall := List.all_eq_true.1 h c hmem
  obtain ⟨p, isDir, werr⟩ := c
  cases werr with
  | some err => simp at hkeep
  | none =>
    cases isDir with
    | true => simp at hkeep
    | false =>
      cases hr : env.readFile p with
      | error err => simp [readBlock, hr]
      | ok content =>
        cases hrel : env.rel path p with
        | error err => simp [hr, hrel] at hall
        | ok rel =>
          have hne : rel ≠ lit "." := by simpa [hr, hrel] using hall
          simp [walkDisplay, relDisplay, hrel, hne]

theorem pathBlocks_display (env : Env) (e : GoString × Bool)
    (h : (!e.2 || match env.stat e.1 with
      | .ok true => walkBelow env e.1
      | _ => true) = true) (he : e.2 = true) :
    pathBlocks (walkDisplay env) env e.1 = pathBlocks (relDisplay env) env e.1 := by
  unfold pathBlocks
  cases hs : env.stat e.1 with
  | error err => rfl
  | ok isDir =>
    cases isDir with
    | false => rfl
    | true =>
      have hw : walkBelow env e.1 = true := by simpa [he, hs] using h
      simp only []
      rw [List.map_congr_left (readBlock_display env e.1 hw)]

theorem selectionBlocks_display (env : Env) (sel : List (GoString × Bool))
    (h : consistentOn env sel = true) :
    selectionBlocks (walkDisplay env) env sel = selectionBlocks (relDisplay env) env sel := by
  unfold selectionBlocks
  congr 1
  apply List.map_congr_left
  intro e he
  obtain ⟨hmem, hsel⟩ := List.mem_filter.1 he
  exact pathBlocks_display env e (List.all_eq_true.1 h e hmem) hsel

/-- C3: on an environment whose answers agree on the selection (`consistentOn`), the buffer
`copySelected` builds, which is the text it hands to the clipboard when there is at least one
block, is the concatenation, in selection order and then walk order, of one block
`"--- " ++ displayName ++ " ---\n" ++ bytes ++ "\n"` per successfully read file, where the
display name of a directly selected file is its base name and that of a walked file is its
path relative to the selected folder (`pathBlocks` under `relDisplay`); the block count is the
number of these blocks, and it is the number the success notification reports. On the sample
(file `A` holding "X", folder `F` holding `a` "1" and `b` "2") this gives the three blocks
`A`, `a`, `b`, the count 3 and the notification "Copied 3 file blocks to clipboard". -/
theorem copySelected_payload (env : Env) (fe : FileExplorer)
    (h : consistentOn env fe.selectedFiles.entries = true) :
    (copyLoop env fe.selectedFiles.entries).buffer =
      payload (selectionBlocks (relDisplay env) env fe.selectedFiles.entries) ∧
    (copySelected env fe).copiedBlocks =
      (selectionBlocks (relDisplay env) env fe.selectedFiles.entries).length ∧
    (copySelected env fe).clipboard =
      (if selectionBlocks (relDisplay env) env fe.selectedFiles.entries = [] then []
       else [payload (selectionBlocks (relDisplay env) env fe.selectedFiles.entries)]) ∧
    (selectionBlocks (relDisplay env) env fe.selectedFiles.entries ≠ [] →
      env.writeAll (payload (selectionBlocks (relDisplay env) env fe.selectedFiles.entries))
        = none →
      (copySelected env fe).notifications.getLast? =
        some { title := lit "Success",
               content := lit "Copied " ++
                 decimal (selectionBlocks (relDisplay env) env fe.selectedFiles.entries).length
                 ++ lit " file blocks to clipboard" }) ∧
    (∀ path p rel, env.rel path p = .ok rel → relDisplay env path p = rel) ∧
    selectionBlocks (relDisplay sampleEnv) sampleEnv
        (viewOf [(lit "/d/A", true), (lit "/d/F", true)]).selectedFiles.entries =
      [(lit "A", lit "X"), (lit "a", lit "1"), (lit "b", lit "2")] ∧
    (copySelected sampleEnv (viewOf [(lit "/d/A", true), (lit "/d/F", true)])).clipboard =
      [lit "--- A ---\nX\n--- a ---\n1\n--- b ---\n2\n"] ∧
    (copySelected sampleEnv (viewOf [(lit "/d/A", true), (lit "/d/F", true)])).copiedBlocks
      = 3 ∧
    (copySelected sampleEnv (viewOf [(lit "/d/A", true), (lit "/d/F", true)])).notifications
      = [{ title := lit "Success", content := lit "Copied 3 file blocks to clipboard" }] := by
  have hd := selectionBlocks_display env fe.selectedFiles.entries h
  refine ⟨?_, ?_, ?_, ?_, ?_, by decide, by decide, by decide, by decide⟩
  · rw [copyLoop_eq, hd]
  · rw [copySelected_copiedBlocks, hd]
  · rw [copySelected_clipboard, hd]
  · intro hne hw
    have hlen : ((selectionBlocks (relDisplay env) env fe.selectedFiles.entries).length == 0)
        = false := by simpa using hne
    rw [copySelected_notifications, hd, List.getLast?_concat]
    simp [finalNotification, hlen, hw]
  · intro path p rel hrel
    simp [relDisplay, hrel]

/-- C3 at the sample: the environment answers consistently on the selection of the file `A`
and the folder `F`, and the clipboard receives the three blocks. -/
theorem copySelected_payload_witness :
    consistentOn sampleEnv
      (viewOf [(lit "/d/A", true), (lit "/d/F", true)]).selectedFiles.entries = true ∧
    (copyLoop sampleEnv
      (viewOf [(lit "/d/A", true), (lit "/d/F", true)]).selectedFiles.entries).buffer =
      payload (selectionBlocks (relDisplay sampleEnv) sampleEnv
        (viewOf [(lit "/d/A", true), (lit "/d/F", true)]).selectedFiles.entries) ∧
    (copySelected sampleEnv (viewOf [(lit "/d/A", true), (lit "/d/F", true)])).copiedBlocks =
      (selectionBlocks (relDisplay sampleEnv) sampleEnv
        (viewOf [(lit "/d/A", true), (lit "/d/F", true)]).selectedFiles.entries).length :=
  ⟨by decide,
    (copySelected_payload sampleEnv (viewOf [(lit "/d/A", true), (lit "/d/F", true)])
      (by decide)).1,
    (copySelected_payload sampleEnv (viewOf [(lit "/d/A", true), (lit "/d/F", true)])
      (by decide)).2.1⟩

/-! ## `copySelected`: nothing to copy, failing paths, frame -/

theorem readLog_title (env : Env) (filePath : GoString) :
    ∀ n ∈ readLog env filePath, n.title = lit "Error" := by
  intro n hn
  unfold readLog at hn
  cases h : env.readFile filePath with
  | error err =>
    rw [h] at hn
    simp only [List.mem_singleton] at hn
    rw [hn]
  | ok content =>
    rw [h] at hn
    simp at hn

theorem pathLog_title (env : Env) (path : GoString) :
    ∀ n ∈ pathLog env path, n.title = lit "Error" := by
  intro n hn
  unfold pathLog at hn
  cases h : env.stat path with
  | error err =>
    rw [h] at hn
    simp only [List.mem_singleton] at hn
    rw [hn]
  | ok isDir =>
    rw [h] at hn
    cases isDir with
    | false => exact readLog_title env path n hn
    | true =>
      simp only [List.mem_append, List.mem_flatten, List.mem_map] at hn
      rcases hn with ⟨l, ⟨c, _, rfl⟩, hn⟩ | hn
      · exact readLog_title env c.p n hn
      · cases hw : (env.walkDir path).2 with
        | none =>
          rw [hw] at hn
          simp at hn
        | some err =>
          rw [hw] at hn
          simp only [List.mem_singleton] at hn
          rw [hn]

theorem selectionLog_title (env : Env) (sel : List (GoString × Bool)) :
    ∀ n ∈ selectionLog env sel, n.title = lit "Error" := by
  intro n hn
  unfold selectionLog at hn
  simp only [List.mem_flatten, List.mem_map] at hn
  obtain ⟨l, ⟨e, _, rfl⟩, hn⟩ := hn
  exact pathLog_title env e.1 n hn

theorem selectionBlocks_all_false (display : GoString → GoString → GoString) (env : Env)
    (sel : List (GoString × Bool)) (h : ∀ e ∈ sel, e.2 = false) :
    selectionBlocks display env sel = [] ∧ selectionLog env sel = [] := by
  have hf : sel.filter (fun e => e.2) = [] := by
    rw [List.filter_eq_nil_iff]
    intro e he
    simp [h e he]
  simp [selectionBlocks, selectionLog, hf]

theorem copySelected_zero (env : Env) (fe : FileExplorer)
    (h : (selectionBlocks (walkDisplay env) env fe.selectedFiles.entries).length = 0) :
    copySelected env fe =
      { fe := fe,
        notifications := selectionLog env fe.selectedFiles.entries ++ [noSelection],
        clipboard := [], copiedBlocks := 0 } := by
  unfold copySelected
  simp only [copyLoop_eq, h, beq_self_eq_true, if_true, showError, noSelection]

/-- C4: when every flag of the selection is false (in particular when the selection is empty)
no block is appended and the only notification is the error "No files selected"; whenever
zero blocks were appended, `copySelected` ends with the error notification "No files
selected", calls the clipboard with nothing and sends no notification titled "Success";
and the clipboard is called only when the block count is at least 1. -/
theorem copySelected_nothing_copied (env : Env) (fe : FileExplorer) :
    ((∀ e ∈ fe.selectedFiles.entries, e.2 = false) →
      (copySelected env fe).copiedBlocks = 0 ∧
      (copySelected env fe).notifications = [noSelection]) ∧
    ((copySelected env fe).copiedBlocks = 0 →
      (copySelected env fe).notifications.getLast? = some noSelection ∧
      (copySelected env fe).clipboard = [] ∧
      ∀ n ∈ (copySelected env fe).notifications, n.title ≠ lit "Success") ∧
    ((copySelected env fe).clipboard ≠ [] → 1 ≤ (copySelected env fe).copiedBlocks) := by
  refine ⟨?_, ?_, ?_⟩
  · intro h
    have hz := selectionBlocks_all_false (walkDisplay env) env _ h
    have h0 : (selectionBlocks (walkDisplay env) env fe.selectedFiles.entries).length = 0 := by
      rw [hz.1]; rfl
    rw [copySelected_zero env fe h0, hz.2]
    exact ⟨rfl, rfl⟩
  · intro h
    rw [copySelected_copiedBlocks] at h
    rw [copySelected_zero env fe h]
    refine ⟨by simp, rfl, ?_⟩
    intro n hn
    simp only [List.mem_append, List.mem_singleton] at hn
    have ht : n.title = lit "Error" := by
      rcases hn with hn | hn
      · exact selectionLog_title env _ n hn
      · rw [hn]; rfl
    rw [ht]
    decide
  · intro h
    rw [copySelected_clipboard] at h
    rw [copySelected_copiedBlocks]
    by_cases hb : selectionBlocks (walkDisplay env) env fe.selectedFiles.entries = []
    · simp [hb] at h
    · exact Nat.succ_le_of_lt (List.length_pos.2 hb)

/-- C4 at a sample: a selection whose two flags are false. -/
theorem copySelected_nothing_copied_witness :
    (∀ e ∈ (viewOf [(lit "/d/A", false), (lit "/d/F", false)]).selectedFiles.entries,
      e.2 = false) ∧
    (copySelected sampleEnv (viewOf [(lit "/d/A", false), (lit "/d/F", false)])).copiedBlocks
      = 0 ∧
    (copySelected sampleEnv (viewOf [(lit "/d/A", false), (lit "/d/F", false)])).notifications
      = [noSelection] :=
  ⟨by decide,
    (copySelected_nothing_copied sampleEnv
      (viewOf [(lit "/d/A", false), (lit "/d/F", false)])).1 (by decide)⟩

/-- C9: `copySelected` returns the view state it was given: current directory, prefix filter
and selection set are as before, whether the copy succeeds, finds nothing to copy or the
clipboard write fails. -/
theorem copySelected_frame (env : Env) (fe : FileExplorer) :
    (copySelected env fe).fe = fe ∧
    (copySelected env fe).fe.currentDir = fe.currentDir ∧
    (copySelected env fe).fe.pfx = fe.pfx ∧
    (copySelected env fe).fe.selectedFiles = fe.selectedFiles := by
  have h : (copySelected env fe).fe = fe := by
    unfold copySelected
    dsimp only
    split
    · rfl
    · split <;> rfl
  rw [h]
  exact ⟨rfl, rfl, rfl, rfl⟩

/-- C10: the payload encoding is not injective. The single block `a` holding
`x`, newline, `--- b ---`, newline, `y` and the two blocks `a` holding `x` and `b` holding `y`
are different block sequences of different lengths with the same payload, and `copySelected`
hands the clipboard this same text in both environments while counting 1 block in one and 2
in the other. -/
theorem payload_not_injective :
    selectionBlocks (walkDisplay oneFileEnv) oneFileEnv
        (viewOf [(lit "/d/a", true)]).selectedFiles.entries
      = [(lit "a", lit "x\n--- b ---\ny")] ∧
    selectionBlocks (walkDisplay twoFilesEnv) twoFilesEnv
        (viewOf [(lit "/d/a", true), (lit "/d/b", true)]).selectedFiles.entries
      = [(lit "a", lit "x"), (lit "b", lit "y")] ∧
    payload [(lit "a", lit "x\n--- b ---\ny")]
      = payload [(lit "a", lit "x"), (lit "b", lit "y")] ∧
    (copySelected oneFileEnv (viewOf [(lit "/d/a", true)])).clipboard =
      (copySelected twoFilesEnv (viewOf [(lit "/d/a", true), (lit "/d/b", true)])).clipboard ∧
    (copySelected oneFileEnv (viewOf [(lit "/d/a", true)])).clipboard
      = [lit "--- a ---\nx\n--- b ---\ny\n"] ∧
    (copySelected oneFileEnv (viewOf [(lit "/d/a", true)])).copiedBlocks = 1 ∧
    (copySelected twoFilesEnv (viewOf [(lit "/d/a", true), (lit "/d/b", true)])).copiedBlocks
      = 2 ∧
    ¬ Function.Injective payload ∧
    ¬ ∃ count : GoString → Nat, ∀ blocks, count (payload blocks) = blocks.length := by
  have hp : payload [(lit "a", lit "x\n--- b ---\ny")]
      = payload [(lit "a", lit "x"), (lit "b", lit "y")] := by decide
  refine ⟨by decide, by decide, hp, by decide, by decide, by decide, by decide, ?_, ?_⟩
  · intro hinj
    have := hinj hp
    exact absurd this (by decide)
  · rintro ⟨count, hc⟩
    have h1 := hc [(lit "a", lit "x\n--- b ---\ny")]
    have h2 := hc [(lit "a", lit "x"), (lit "b", lit "y")]
    rw [hp, h2] at h1
    exact absurd h1 (by decide)

theorem finalNotification_eq_noSelection (env : Env) (blocks : List (GoString × GoString)) :
    finalNotification env blocks = noSelection ↔ blocks.length = 0 := by
  unfold finalNotification
  by_cases h : blocks.length = 0
  · simp [h]
  · have hb : (blocks.length == 0) = false := by simpa using h
    simp only [hb, h, iff_false, Bool.false_eq_true, if_false]
    cases hw : env.writeAll (payload blocks) with
    | some err =>
      intro heq
      have hc : (lit "Failed to copy to clipboard: " ++ err).head?
          = (lit "No files selected").head? := congrArg (fun n => n.content.head?) heq
      have h1 : lit "Failed to copy to clipboard: " = 70 :: lit "ailed to copy to clipboard: " := by
        decide
      have h2 : (lit "No files selected").head? = some 78 := by decide
      rw [h1, h2] at hc
      simp at hc
    | none =>
      intro heq
      have hc : lit "Success" = lit "Error" := congrArg Notification.title heq
      exact absurd hc (by decide)

theorem lookup_split (k : GoString) (v : Bool) (l : List (GoString × Bool))
    (h : List.lookup k l = some v) :
    ∃ l1 l2, l = l1 ++ (k, v) :: l2 ∧ k ∉ l1.map Prod.fst := by
  induction l with
  | nil => simp at h
  | cons e es ih =>
    obtain ⟨k', v'⟩ := e
    by_cases hk : k = k'
    · subst hk
      simp only [List.lookup_cons, beq_self_eq_true, Option.some.injEq] at h
      subst h
      exact ⟨[], es, rfl, by simp⟩
    · have hb : (k == k') = false := by simpa using hk
      simp only [List.lookup_cons, hb] at h
      obtain ⟨l1, l2, rfl, hn⟩ := ih h
      refine ⟨(k', v') :: l1, l2, rfl, ?_⟩
      simp only [List.map_cons, List.mem_cons, not_or]
      exact ⟨hk, hn⟩

theorem filter_ne_key (k : GoString) (l : List (GoString × Bool)) (h : k ∉ l.map Prod.fst) :
    l.filter (fun e => e.1 != k) = l := by
  rw [List.filter_eq_self]
  intro e he
  have : e.1 ≠ k := fun hk => h (hk ▸ List.mem_map_of_mem Prod.fst he)
  simpa using this

theorem erase_entries (m : GoMap) (k : GoString) (h : m.lookup k = some true) :
    ∃ l1 l2, m.entries = l1 ++ (k, true) :: l2 ∧ (m.erase k).entries = l1 ++ l2 := by
  obtain ⟨l1, l2, hl, hn1⟩ := lookup_split k true m.entries h
  refine ⟨l1, l2, hl, ?_⟩
  have hnd := m.nodup
  rw [hl] at hnd
  simp only [List.map_append, List.map_cons] at hnd
  have hn2 : k ∉ l2.map Prod.fst := by
    have h2 := (List.nodup_append.1 hnd).2.1
    exact (List.nodup_cons.1 h2).1
  show (m.entries.filter (fun e => e.1 != k)) = l1 ++ l2
  rw [hl, List.filter_append, List.filter_cons, filter_ne_key k l1 hn1, filter_ne_key k l2 hn2]
  simp

/-- C5: when a path flagged true fails `os.Stat`, that path contributes no block; the
buffer, the clipboard text and the block count are those of the run with that path taken out
of the selection; the notifications are those of that run with exactly one more, the error
"Error accessing <path>: <cause>", inserted; and the run ends with the no-selection error
exactly when the other paths contributed no block. -/
theorem copySelected_stat_failure (env : Env) (fe : FileExplorer) (path cause : GoString)
    (hsel : fe.selectedFiles.lookup path = some true)
    (hstat : env.stat path = .error cause) :
    pathBlocks (walkDisplay env) env path = [] ∧
    (copyLoop env fe.selectedFiles.entries).buffer =
      (copyLoop env (unselect fe path).selectedFiles.entries).buffer ∧
    (copySelected env fe).clipboard = (copySelected env (unselect fe path)).clipboard ∧
    (copySelected env fe).copiedBlocks = (copySelected env (unselect fe path)).copiedBlocks ∧
    (∃ before after,
      (copySelected env fe).notifications = before ++ [accessError path cause] ++ after ∧
      (copySelected env (unselect fe path)).notifications = before ++ after) ∧
    ((copySelected env fe).notifications.getLast? = some noSelection ↔
      (copySelected env (unselect fe path)).copiedBlocks = 0) := by
  obtain ⟨l1, l2, h1, h2⟩ := erase_entries fe.selectedFiles path hsel
  have h2' : (unselect fe path).selectedFiles.entries = l1 ++ l2 := h2
  have hp : pathBlocks (walkDisplay env) env path = [] := by simp [pathBlocks, hstat]
  have hb1 : selectionBlocks (walkDisplay env) env [(path, true)] = [] := by
    simp [selectionBlocks, hp]
  have hl1 : selectionLog env [(path, true)] = [accessError path cause] := by
    simp [selectionLog, pathLog, hstat, accessError]
  have hb : selectionBlocks (walkDisplay env) env fe.selectedFiles.entries =
      selectionBlocks (walkDisplay env) env (unselect fe path).selectedFiles.entries := by
    have hc : l1 ++ (path, true) :: l2 = l1 ++ ([(path, true)] ++ l2) := rfl
    rw [h1, h2', hc, selectionBlocks_append, selectionBlocks_append, selectionBlocks_append, hb1]
    simp
  have hl : selectionLog env fe.selectedFiles.entries =
      selectionLog env l1 ++ [accessError path cause] ++ selectionLog env l2 := by
    have hc : l1 ++ (path, true) :: l2 = l1 ++ ([(path, true)] ++ l2) := rfl
    rw [h1, hc, selectionLog_append, selectionLog_append, hl1]
    simp
  refine ⟨hp, ?_, ?_, ?_, ?_, ?_⟩
  · rw [copyLoop_eq, copyLoop_eq, hb]
  · rw [copySelected_clipboard, copySelected_clipboard, hb]
  · rw [copySelected_copiedBlocks, copySelected_copiedBlocks, hb]
  · refine ⟨selectionLog env l1, selectionLog env l2 ++
      [finalNotification env (selectionBlocks (walkDisplay env) env
        (unselect fe path).selectedFiles.entries)], ?_, ?_⟩
    · rw [copySelected_notifications, hl, hb]
      simp
    · rw [copySelected_notifications, h2', selectionLog_append]
      simp
  · rw [copySelected_notifications, copySelected_copiedBlocks, hb]
    rw [List.getLast?_concat, Option.some.injEq]
    exact finalNotification_eq_noSelection env _

/-- C5 at a sample: `/d/gone` does not exist, `/d/A` does. -/
theorem copySelected_stat_failure_witness :
    (viewOf [(lit "/d/gone", true), (lit "/d/A", true)]).selectedFiles.lookup (lit "/d/gone")
      = some true ∧
    sampleEnv.stat (lit "/d/gone") = .error (lit "stat /d/gone: no such file or directory") ∧
    (copySelected sampleEnv (viewOf [(lit "/d/gone", true), (lit "/d/A", true)])).clipboard =
      (copySelected sampleEnv (unselect (viewOf [(lit "/d/gone", true), (lit "/d/A", true)])
        (lit "/d/gone"))).clipboard ∧
    (copySelected sampleEnv (viewOf [(lit "/d/gone", true), (lit "/d/A", true)])).clipboard =
      [lit "--- A ---\nX\n"] :=
  ⟨by decide, rfl,
    (copySelected_stat_failure sampleEnv (viewOf [(lit "/d/gone", true), (lit "/d/A", true)])
      (lit "/d/gone") (lit "stat /d/gone: no such file or directory") (by decide) rfl).2.2.1,
    by decide⟩

/-! ## Navigation, root detection, `Select All` -/

/-- C6: after the in-place enter-folder action the current directory is the folder path, after
the in-place parent action it is `filepath.Dir` of the former current directory, and in both
cases the selection set is empty: every path reads as absent and its checkbox is rendered
unchecked, whatever its flag was before. -/
theorem navigation_clears_selection (env : Env) (fe : FileExplorer) (folderPath p : GoString) :
    (openHere fe folderPath).currentDir = folderPath ∧
    (openHere fe folderPath).selectedFiles.entries = [] ∧
    (openHere fe folderPath).selectedFiles.lookup p = none ∧
    checkState (openHere fe folderPath) p = false ∧
    (parentHere env fe).currentDir = env.dir fe.currentDir ∧
    (parentHere env fe).selectedFiles.entries = [] ∧
    (parentHere env fe).selectedFiles.lookup p = none ∧
    checkState (parentHere env fe) p = false :=
  ⟨rfl, rfl, rfl, rfl, rfl, rfl, rfl, rfl⟩

theorem lit_slash : lit "/" = [47] := by decide

theorem lit_colon_backslash : lit ":\\" = [58, 92] := by decide

theorem isRoot_iff (path : GoString) :
    isRoot path = true ↔ path = lit "/" ∨ ∃ c, path = c :: lit ":\\" := by
  rw [lit_colon_backslash]
  unfold isRoot
  rw [lit_slash]
  rcases path with _ | ⟨a, _ | ⟨b, _ | ⟨c, _ | ⟨d, r⟩⟩⟩⟩ <;> simp

/-- C7 (as amended): `isRoot(path)` is true exactly when `path` is "/" or `path` consists of
three bytes of which the second is a colon and the third a backslash, the first byte being
any byte; every drive-letter root is such a path; and the rows built by `updateContent` hold
the parent-navigation row exactly when `isRoot(currentDir)` is false. -/
theorem isRoot_parent_row (env : Env) (fe : FileExplorer) (path : GoString) :
    (isRoot path = true ↔ path = lit "/" ∨ ∃ c, path = c :: lit ":\\") ∧
    (isDriveRoot path = true → isRoot path = true) ∧
    (∀ folders files,
      Row.parent ∈ rows env fe folders files ↔ isRoot fe.currentDir = false) ∧
    (∀ rs cp folders files, updateContent env fe = Content.browser rs cp folders files →
      (Row.parent ∈ rs ↔ isRoot fe.currentDir = false)) := by
  have hrows : ∀ folders files,
      Row.parent ∈ rows env fe folders files ↔ isRoot fe.currentDir = false := by
    intro folders files
    unfold rows
    cases h : isRoot fe.currentDir <;> simp
  refine ⟨isRoot_iff path, ?_, hrows, ?_⟩
  · intro h
    rw [isRoot_iff, lit_colon_backslash]
    unfold isDriveRoot at h
    split at h
    · exact Or.inr ⟨_, rfl⟩
    · exact absurd h (by simp)
  · intro rs cp folders files h
    unfold updateContent at h
    cases hr : env.readDir fe.currentDir with
    | error err =>
      rw [hr] at h
      exact Content.noConfusion h
    | ok entries =>
      rw [hr] at h
      simp only [Content.browser.injEq] at h
      rw [← h.1]
      exact hrows _ _

/-- C7 (as stated) fails: `isRoot` accepts the three bytes `1:\`, which are neither "/" nor a
drive letter followed by a colon and a backslash. -/
theorem isRoot_drive_letter_counterexample :
    ¬ (isRoot (lit "1:\\") = true ↔
        (lit "1:\\" = lit "/" ∨ isDriveRoot (lit "1:\\") = true)) := by
  decide

theorem lookup_setEntry (k k' : GoString) (v : Bool) (es : List (GoString × Bool)) :
    List.lookup k' (setEntry k v es) = if k' = k then some v else List.lookup k' es := by
  induction es with
  | nil =>
    by_cases h : k' = k
    · simp [setEntry, List.lookup_cons, h]
    · have hb : (k' == k) = false := by simpa using h
      simp [setEntry, List.lookup_cons, h, hb]
  | cons e es ih =>
    obtain ⟨k0, v0⟩ := e
    by_cases h0 : k0 = k
    · subst h0
      by_cases h : k' = k0
      · simp [setEntry, List.lookup_cons, h]
      · have hb : (k' == k0) = false := by simpa using h
        simp [setEntry, List.lookup_cons, h, hb]
    · by_cases h : k' = k0
      · subst h
        have hk : ¬ k' = k := h0
        simp [setEntry, List.lookup_cons, h0, hk]
      · have hb : (k' == k0) = false := by simpa using h
        simp [setEntry, List.lookup_cons, h0, hb, ih]

theorem selectEach_spec (env : Env) (group : List DirEntry) (fe : FileExplorer) :
    (selectEach env fe group).currentDir = fe.currentDir ∧
    (selectEach env fe group).pfx = fe.pfx ∧
    ∀ p, (selectEach env fe group).selectedFiles.lookup p =
      if p ∈ group.map (fun e => env.join fe.currentDir e.name) then some true
      else fe.selectedFiles.lookup p := by
  induction group generalizing fe with
  | nil => simp [selectEach]
  | cons e es ih =>
    have hstep : selectEach env fe (e :: es) =
        selectEach env (toggle fe (env.join fe.currentDir e.name) true) es := rfl
    obtain ⟨h1, h2, h3⟩ := ih (toggle fe (env.join fe.currentDir e.name) true)
    rw [hstep]
    refine ⟨h1, h2, ?_⟩
    intro p
    rw [h3 p]
    have hcd : (toggle fe (env.join fe.currentDir e.name) true).currentDir = fe.currentDir := rfl
    have hlk : (toggle fe (env.join fe.currentDir e.name) true).selectedFiles.lookup p =
        if p = env.join fe.currentDir e.name then some true else fe.selectedFiles.lookup p :=
      lookup_setEntry _ _ _ _
    rw [hcd, hlk]
    by_cases hp : p = env.join fe.currentDir e.name
    · simp [hp]
    · simp [hp]

/-- C8: after `Select All` on a view and its listing `(folders, files)`, the path
`Join(currentDir, name)` of every listed folder and file is flagged true, every path that is
not such a path keeps the flag or the absence it had, and the current directory and the
prefix are unchanged. -/
theorem selectAll_frame (env : Env) (fe : FileExplorer) (folders files : List DirEntry) :
    (∀ e ∈ folders ++ files,
      (selectAll env fe folders files).selectedFiles.lookup (env.join fe.currentDir e.name)
        = some true) ∧
    (∀ p, (∀ e ∈ folders ++ files, env.join fe.currentDir e.name ≠ p) →
      (selectAll env fe folders files).selectedFiles.lookup p = fe.selectedFiles.lookup p) ∧
    (selectAll env fe folders files).currentDir = fe.currentDir ∧
    (selectAll env fe folders files).pfx = fe.pfx := by
  obtain ⟨a1, a2, a3⟩ := selectEach_spec env folders fe
  obtain ⟨b1, b2, b3⟩ := selectEach_spec env files (selectEach env fe folders)
  have hall : ∀ p, (selectAll env fe folders files).selectedFiles.lookup p =
      if p ∈ (folders ++ files).map (fun e => env.join fe.currentDir e.name) then some true
      else fe.selectedFiles.lookup p := by
    intro p
    show (selectEach env (selectEach env fe folders) files).selectedFiles.lookup p = _
    rw [b3 p, a3 p, a1]
    simp only [List.map_append, List.mem_append]
    by_cases h1 : p ∈ files.map (fun e => env.join fe.currentDir e.name)
    · simp [h1]
    · by_cases h2 : p ∈ folders.map (fun e => env.join fe.currentDir e.name)
      · simp [h2]
      · simp [h1, h2]
  refine ⟨?_, ?_, b1.trans a1, b2.trans a2⟩
  · intro e he
    rw [hall, if_pos]
    exact List.mem_map_of_mem _ he
  · intro p hp
    rw [hall, if_neg]
    intro hmem
    obtain ⟨e, he, hpe⟩ := List.mem_map.1 hmem
    exact hp e he hpe

/-- C8 at a sample: `Select All` on the listing of `/d` flags `/d/F` and `/d/A` and leaves the
unlisted `/d/F/a` absent. -/
theorem selectAll_frame_witness :
    (selectAll sampleEnv (viewOf []) [⟨lit "F", true⟩] [⟨lit "A", false⟩]).selectedFiles.lookup
      (lit "/d/A") = some true ∧
    (selectAll sampleEnv (viewOf []) [⟨lit "F", true⟩] [⟨lit "A", false⟩]).selectedFiles.lookup
      (lit "/d/F/a") = (viewOf []).selectedFiles.lookup (lit "/d/F/a") :=
  ⟨(selectAll_frame sampleEnv (viewOf []) [⟨lit "F", true⟩] [⟨lit "A", false⟩]).1
      ⟨lit "A", false⟩ (by decide),
    (selectAll_frame sampleEnv (viewOf []) [⟨lit "F", true⟩] [⟨lit "A", false⟩]).2.1
      (lit "/d/F/a") (by decide)⟩

end CopyFiles
